import Mathlib

/-!
Verification of the `jsx-wrap-multilines` rule from
`src/lib/rules/jsx-wrap-multilines.js`: a shallow embedding of the rule's
data model, helper predicates, configuration resolution and the seven
traversal handlers, together with theorems about the properties the rule
is specified to have.
-/

namespace JsxWrapMultilines

/-- An AST node as the rule observes it: a `type` tag, a source range
(character offsets `range[0]`, `range[1]`), start/end source line numbers
(`loc.start.line`, `loc.end.line`), and the child fields the rule reads
(`init`, `right`, `argument`, `body`, `consequent`, `alternate`, `value`,
`expression`).  Absent children (JavaScript `null`/`undefined`) are `none`. -/
inductive Node : Type where
  | mk
      (type : String)
      (rangeStart rangeEnd : Nat)
      (locStartLine locEndLine : Nat)
      (init : Option Node)
      (right : Option Node)
      (argument : Option Node)
      (body : Option Node)
      (consequent : Option Node)
      (alternate : Option Node)
      (value : Option Node)
      (expression : Option Node) : Node

def Node.type : Node → String
  | .mk t _ _ _ _ _ _ _ _ _ _ _ _ => t

def Node.rangeStart : Node → Nat
  | .mk _ rs _ _ _ _ _ _ _ _ _ _ _ => rs

def Node.rangeEnd : Node → Nat
  | .mk _ _ re _ _ _ _ _ _ _ _ _ _ => re

def Node.locStartLine : Node → Nat
  | .mk _ _ _ ls _ _ _ _ _ _ _ _ _ => ls

def Node.locEndLine : Node → Nat
  | .mk _ _ _ _ le _ _ _ _ _ _ _ _ => le

def Node.init : Node → Option Node
  | .mk _ _ _ _ _ i _ _ _ _ _ _ _ => i

def Node.right : Node → Option Node
  | .mk _ _ _ _ _ _ r _ _ _ _ _ _ => r

def Node.argument : Node → Option Node
  | .mk _ _ _ _ _ _ _ a _ _ _ _ _ => a

def Node.body : Node → Option Node
  | .mk _ _ _ _ _ _ _ _ b _ _ _ _ => b

def Node.consequent : Node → Option Node
  | .mk _ _ _ _ _ _ _ _ _ c _ _ _ => c

def Node.alternate : Node → Option Node
  | .mk _ _ _ _ _ _ _ _ _ _ al _ _ => al

def Node.value : Node → Option Node
  | .mk _ _ _ _ _ _ _ _ _ _ _ v _ => v

def Node.expression : Node → Option Node
  | .mk _ _ _ _ _ _ _ _ _ _ _ _ e => e

/-- A lexical token: literal text `value` and its source range. -/
structure Token : Type where
  value : String
  rangeStart : Nat
  rangeEnd : Nat
  deriving DecidableEq, Repr

/-- The host's read-only source view (spec section 6): the file's character
sequence and its lexical token stream, in source order. -/
structure SourceCode : Type where
  text : List Char
  tokens : List Token

/-- Host interface `sourceCode.getTokenBefore(node)`: the token immediately
preceding the node, i.e. the last token of the stream that ends at or
before the node's start offset; `none` when no such token exists. -/
def SourceCode.getTokenBefore (sc : SourceCode) (node : Node) : Option Token :=
  (sc.tokens.filter (fun t => decide (t.rangeEnd ≤ node.rangeStart))).getLast?

/-- Host interface `sourceCode.getTokenAfter(node)`: the token immediately
following the node, i.e. the first token of the stream that starts at or
after the node's end offset; `none` when no such token exists. -/
def SourceCode.getTokenAfter (sc : SourceCode) (node : Node) : Option Token :=
  (sc.tokens.filter (fun t => decide (node.rangeEnd ≤ t.rangeStart))).head?

/-- Host interface `sourceCode.getText(node)`: the exact source text covered
by the node's range. -/
def SourceCode.getText (sc : SourceCode) (node : Node) : List Char :=
  (sc.text.drop node.rangeStart).take (node.rangeEnd - node.rangeStart)

/-- `isParenthesised` from the source: both neighbor tokens must exist, the
previous one must be literally `(` ending at or before the node's start,
and the next one literally `)` starting at or after the node's end. -/
def isParenthesised (sc : SourceCode) (node : Node) : Bool :=
  match sc.getTokenBefore node, sc.getTokenAfter node with
  | some previousToken, some nextToken =>
      previousToken.value == "(" &&
      decide (previousToken.rangeEnd ≤ node.rangeStart) &&
      (nextToken.value == ")" &&
       decide (node.rangeEnd ≤ nextToken.rangeStart))
  | _, _ => false

/-- `isMultilines` from the source: start and end lines differ. -/
def isMultilines (node : Node) : Bool :=
  node.locStartLine != node.locEndLine

/-- A materialized fix: a single replace-range edit. -/
structure Fix : Type where
  rangeStart : Nat
  rangeEnd : Nat
  text : List Char
  deriving DecidableEq, Repr

/-- A reported violation: the offending node, the diagnostic message, and
the (optional, as far as the host interface goes) fix. -/
structure Violation : Type where
  node : Node
  message : String
  fix : Option Fix

/-- `check` from the source: skip absent nodes and nodes that are not JSX
elements; report exactly when the node is unparenthesised and multiline,
with the fixed message and a fix replacing the node's own range by its
original text wrapped in one parenthesis pair. -/
def check (sc : SourceCode) (node : Option Node) : Option Violation :=
  match node with
  | none => none
  | some n =>
      if n.type != "JSXElement" then none
      else if !isParenthesised sc n && isMultilines n then
        some { node := n
               message := "Missing parentheses around multilines JSX"
               fix := some { rangeStart := n.rangeStart
                             rangeEnd := n.rangeEnd
                             text := ('(' :: sc.getText n) ++ [')'] } }
      else none

/-- The user options object: at most the seven recognized boolean keys
(schema-validated upstream, `additionalProperties: false`).  A `none` field
means the key is not present on the object. -/
structure Options : Type where
  declaration : Option Bool := none
  assignment : Option Bool := none
  «return» : Option Bool := none
  arrow : Option Bool := none
  condition : Option Bool := none
  logical : Option Bool := none
  prop : Option Bool := none
  deriving DecidableEq, Repr

/-- Property lookup `userOptions[type]` combined with `has(userOptions, type)`:
`some b` exactly when the key is explicitly present with value `b`. -/
def Options.lookup (o : Options) : String → Option Bool
  | "declaration" => o.declaration
  | "assignment" => o.assignment
  | "return" => o.«return»
  | "arrow" => o.arrow
  | "condition" => o.condition
  | "logical" => o.logical
  | "prop" => o.prop
  | _ => none

/-- The `DEFAULTS` constant from the source; `none` for any string outside
the seven recognized context names (reading a missing JavaScript object key
yields `undefined`). -/
def DEFAULTS : String → Option Bool
  | "declaration" => some true
  | "assignment" => some true
  | "return" => some true
  | "arrow" => some true
  | "condition" => some false
  | "logical" => some false
  | "prop" => some false
  | _ => none

/-- JavaScript truthiness of a possibly-`undefined` boolean. -/
def truthy : Option Bool → Bool
  | some b => b
  | none => false

/-- `isEnabled` from the source: `context.options[0] || {}`, then the user
value verbatim when the key is explicitly present (`has`), else the default. -/
def isEnabled (options : Option Options) (t : String) : Option Bool :=
  let userOptions := options.getD {}
  match userOptions.lookup t with
  | some b => some b
  | none => DEFAULTS t

/-- The guard `node.init && node.init.type === 'ConditionalExpression'`. -/
def isConditionalNode : Option Node → Bool
  | some n => n.type == "ConditionalExpression"
  | none => false

/-- The `VariableDeclarator` handler.  Violations are collected in call
order into a list (the host's `context.report` sink). -/
def VariableDeclarator (sc : SourceCode) (options : Option Options)
    (node : Node) : List Violation :=
  if !truthy (isEnabled options "declaration") then []
  else if !truthy (isEnabled options "condition") && isConditionalNode node.init then
    (check sc (node.init.bind Node.consequent)).toList ++
    (check sc (node.init.bind Node.alternate)).toList
  else (check sc node.init).toList

/-- The `AssignmentExpression` handler.  JavaScript reads
`node.right.type` without a null guard, so a delivery without a
right-hand side crashes (`Except.error`) exactly when that read is
reached: `assignment` enabled and `condition` disabled. -/
def AssignmentExpression (sc : SourceCode) (options : Option Options)
    (node : Node) : Except String (List Violation) :=
  if !truthy (isEnabled options "assignment") then .ok []
  else if !truthy (isEnabled options "condition") then
    match node.right with
    | none => .error "TypeError: cannot read properties of undefined"
    | some r =>
        if r.type == "ConditionalExpression" then
          .ok ((check sc r.consequent).toList ++ (check sc r.alternate).toList)
        else .ok (check sc (some r)).toList
  else .ok (check sc node.right).toList

/-- The `ReturnStatement` handler. -/
def ReturnStatement (sc : SourceCode) (options : Option Options)
    (node : Node) : List Violation :=
  if truthy (isEnabled options "return") then (check sc node.argument).toList
  else []

/-- The `ArrowFunctionExpression:exit` handler.  JavaScript reads
`arrowBody.type` without a null guard, but only after `isEnabled('arrow')`
short-circuits to true. -/
def ArrowFunctionExpressionExit (sc : SourceCode) (options : Option Options)
    (node : Node) : Except String (List Violation) :=
  if truthy (isEnabled options "arrow") then
    match node.body with
    | none => .error "TypeError: cannot read properties of undefined"
    | some arrowBody =>
        if arrowBody.type != "BlockStatement" then
          .ok (check sc (some arrowBody)).toList
        else .ok []
  else .ok []

/-- The `ConditionalExpression` handler. -/
def ConditionalExpression (sc : SourceCode) (options : Option Options)
    (node : Node) : List Violation :=
  if truthy (isEnabled options "condition") then
    (check sc node.consequent).toList ++ (check sc node.alternate).toList
  else []

/-- The `LogicalExpression` handler. -/
def LogicalExpression (sc : SourceCode) (options : Option Options)
    (node : Node) : List Violation :=
  if truthy (isEnabled options "logical") then (check sc node.right).toList
  else []

/-- The `JSXAttribute` handler. -/
def JSXAttribute (sc : SourceCode) (options : Option Options)
    (node : Node) : List Violation :=
  if truthy (isEnabled options "prop") then
    match node.value with
    | some v =>
        if v.type == "JSXExpressionContainer" then
          (check sc v.expression).toList
        else []
    | none => []
  else []

/-- The source file `x = <div>\nhello\n</div>;` (the JSX element spans
offsets 4 to 22 and lines 1 to 3), with its token stream. -/
def sc0 : SourceCode :=
  { text := "x = <div>\nhello\n</div>;".data
    tokens := [⟨"x", 0, 1⟩, ⟨"=", 2, 3⟩, ⟨"<", 4, 5⟩, ⟨"div", 5, 8⟩,
               ⟨">", 8, 9⟩, ⟨"hello", 10, 15⟩, ⟨"<", 16, 17⟩, ⟨"/", 17, 18⟩,
               ⟨"div", 18, 21⟩, ⟨">", 21, 22⟩, ⟨";", 22, 23⟩] }

/-- The multiline JSX element of `sc0`. -/
def jsxNode : Node :=
  .mk "JSXElement" 4 22 1 3 none none none none none none none none

/-- A single-line JSX element at the very start of a file (no token before it). -/
def nodeAtStart : Node :=
  .mk "JSXElement" 0 5 1 1 none none none none none none none none

/-- The parenthesised predicate in the spec's words (section 4.3, step 2):
both neighbor lookups succeed, the preceding token is literally `(` with
its end at or before the node's start, and the following token is
literally `)` with its start at or after the node's end. -/
def parenthesisedSpec (sc : SourceCode) (node : Node) : Prop :=
  ∃ prev next : Token,
    sc.getTokenBefore node = some prev ∧
    sc.getTokenAfter node = some next ∧
    prev.value = "(" ∧ prev.rangeEnd ≤ node.rangeStart ∧
    next.value = ")" ∧ node.rangeEnd ≤ next.rangeStart

/-- A single-line JSX element (line 2 only), the consequent of `cond5`. -/
def jsxOneLineA : Node :=
  .mk "JSXElement" 8 13 2 2 none none none none none none none none

/-- A single-line JSX element (line 3 only), the alternate of `cond5`. -/
def jsxOneLineB : Node :=
  .mk "JSXElement" 16 21 3 3 none none none none none none none none

/-- A conditional expression spanning lines 1 to 3 (multiline), at offsets
4 to 22 of `sc0`, hence with no wrapping parentheses around it. -/
def cond5 : Node :=
  .mk "ConditionalExpression" 4 22 1 3 none none none none
    (some jsxOneLineA) (some jsxOneLineB) none none

/-- A variable declarator whose initializer is `cond5`. -/
def decl5 : Node :=
  .mk "VariableDeclarator" 0 22 1 3 (some cond5) none none none
    none none none none

/-- An assignment expression whose right-hand side is `cond5`. -/
def asgn5 : Node :=
  .mk "AssignmentExpression" 0 22 1 3 none (some cond5) none none
    none none none none

/-- Options enabling the `condition` context. -/
def opts5 : Options := { condition := some true }

/-- An arrow function whose body is the (non-block) JSX element `jsxNode`. -/
def arrow0 : Node :=
  .mk "ArrowFunctionExpression" 0 22 1 3 none none none (some jsxNode)
    none none none none

/-- A return statement whose argument is `jsxNode`. -/
def return0 : Node :=
  .mk "ReturnStatement" 0 23 1 3 none none (some jsxNode) none
    none none none none

/-- The violation `check` produces on `jsxNode` in `sc0`. -/
def violation0 : Violation :=
  { node := jsxNode
    message := "Missing parentheses around multilines JSX"
    fix := some ⟨4, 22, ('(' :: sc0.getText jsxNode) ++ [')']⟩ }

/-- Shift a token right by `k` characters. -/
def shiftToken (k : Nat) (t : Token) : Token :=
  { t with rangeStart := t.rangeStart + k, rangeEnd := t.rangeEnd + k }

/-- A node's position in the edited file: its range shifted right by `k`,
everything else unchanged. -/
def shiftNodeRange (k : Nat) : Node → Node
  | .mk t rs re ls le i r a b c al v e =>
      .mk t (rs + k) (re + k) ls le i r a b c al v e

/-- Applying a single replace-range edit (`fixer.replaceText`) to the
file's character sequence. -/
def applyFix (text : List Char) (f : Fix) : List Char :=
  text.take f.rangeStart ++ f.text ++ text.drop f.rangeEnd

/-- Modelled from the spec: the host's fix application and re-tokenization
(spec sections 4.4 and 6), which are outside this rule's code.  Wrapping
the range from `s` to `e` in parentheses keeps the tokens ending at or
before `s` in place, adds a `(` token occupying the single inserted
character at `s`, shifts the tokens lying inside the range right by one,
adds a `)` token occupying the single inserted character after the shifted
range, and shifts the tokens starting at or after `e` right by two. -/
def applyFixTokens (ts : List Token) (s e : Nat) : List Token :=
  ts.filter (fun t => decide (t.rangeEnd ≤ s)) ++
  [⟨"(", s, s + 1⟩] ++
  (ts.filter (fun t => decide (s ≤ t.rangeStart) && decide (t.rangeEnd ≤ e))).map
    (shiftToken 1) ++
  [⟨")", e + 1, e + 2⟩] ++
  (ts.filter (fun t => decide (e ≤ t.rangeStart))).map (shiftToken 2)

/-- The fixed source as seen by a re-run of the rule: the edited character
sequence and the re-tokenized stream. -/
def fixedSource (sc : SourceCode) (node : Node) (f : Fix) : SourceCode :=
  { text := applyFix sc.text f
    tokens := applyFixTokens sc.tokens node.rangeStart node.rangeEnd }

/-- The fix `check` produces on `jsxNode` in `sc0`. -/
def fix0 : Fix :=
  ⟨4, 22, ('(' :: sc0.getText jsxNode) ++ [')']⟩

/-! ## Theorems -/

/-- Characterization of when `check` reports on a present node. -/
theorem check_some_iff (sc : SourceCode) (n : Node) :
    (check sc (some n)).isSome = true ↔
      (n.type = "JSXElement" ∧ isParenthesised sc n = false ∧
       isMultilines n = true) := by
  simp only [check]
  by_cases ht : n.type = "JSXElement" <;>
    by_cases hp : isParenthesised sc n <;>
    by_cases hm : isMultilines n <;>
    simp [ht, hp, hm]

/-- Everything `check` guarantees about a reported violation. -/
theorem check_some_elim (sc : SourceCode) (n : Node) (v : Violation)
    (h : check sc (some n) = some v) :
    n.type = "JSXElement" ∧ v.node = n ∧
    v.message = "Missing parentheses around multilines JSX" ∧
    v.fix = some ⟨n.rangeStart, n.rangeEnd, ('(' :: sc.getText n) ++ [')']⟩ ∧
    isParenthesised sc n = false ∧ isMultilines n = true := by
  simp only [check] at h
  split at h
  · exact Option.noConfusion h
  · split at h
    · rename_i htype hcond
      rw [Bool.and_eq_true, Bool.not_eq_true'] at hcond
      injection h with hv
      subst hv
      refine ⟨?_, rfl, rfl, rfl, hcond.1, hcond.2⟩
      simpa [bne] using htype
    · exact Option.noConfusion h

/-- The empty options object holds none of the seven keys. -/
theorem emptyOptions_lookup (t : String) : (({} : Options)).lookup t = none := by
  unfold Options.lookup
  split <;> rfl

/-- C1: for every markup-element node (`type = "JSXElement"`), `check`
reports a violation iff the node spans more than one source line and is
not parenthesised; in particular a markup-element node whose start and end
lie on the same line is never reported, regardless of parenthesization. -/
theorem check_flags_multiline_unparenthesised_iff (sc : SourceCode) (n : Node)
    (h : n.type = "JSXElement") :
    ((check sc (some n)).isSome = true ↔
      (n.locStartLine ≠ n.locEndLine ∧ isParenthesised sc n = false)) ∧
    (n.locStartLine = n.locEndLine → check sc (some n) = none) := by
  constructor
  · rw [check_some_iff]
    constructor
    · rintro ⟨-, hp, hm⟩
      rw [isMultilines, bne_iff_ne] at hm
      exact ⟨hm, hp⟩
    · rintro ⟨hm, hp⟩
      exact ⟨h, hp, by rwa [isMultilines, bne_iff_ne]⟩
  · intro hline
    cases hcheck : check sc (some n) with
    | none => rfl
    | some v =>
        have hm := ((check_some_iff sc n).mp (by rw [hcheck]; rfl)).2.2
        rw [isMultilines, bne_iff_ne] at hm
        exact absurd hline hm

/-- Witness for C1: on the multiline, unparenthesised JSX element of `sc0`
a violation is reported. -/
theorem check_flags_multiline_unparenthesised_iff_witness :
    (check sc0 (some jsxNode)).isSome = true :=
  ((check_flags_multiline_unparenthesised_iff sc0 jsxNode rfl).1).mpr
    ⟨by decide, by rfl⟩

/-- C2: `isParenthesised` agrees exactly with the spec's description, and a
node missing either neighbor token is not parenthesised. -/
theorem isParenthesised_iff_spec (sc : SourceCode) (node : Node) :
    (isParenthesised sc node = true ↔ parenthesisedSpec sc node) ∧
    ((sc.getTokenBefore node = none ∨ sc.getTokenAfter node = none) →
      isParenthesised sc node = false) := by
  constructor
  · rw [isParenthesised, parenthesisedSpec]
    cases hb : sc.getTokenBefore node with
    | none =>
        simp only [hb]
        constructor
        · intro h; exact absurd h (by simp)
        · rintro ⟨prev, next, hprev, -⟩; exact Option.noConfusion hprev
    | some prev =>
        cases ha : sc.getTokenAfter node with
        | none =>
            simp only [ha]
            constructor
            · intro h; exact absurd h (by simp)
            · rintro ⟨p, q, -, hnext, -⟩; exact Option.noConfusion hnext
        | some next =>
            simp only [ha, hb, Bool.and_eq_true, beq_iff_eq,
              decide_eq_true_eq, Option.some.injEq]
            constructor
            · rintro ⟨⟨h1, h2⟩, h3, h4⟩
              exact ⟨prev, next, rfl, rfl, h1, h2, h3, h4⟩
            · rintro ⟨p, q, hp, hq, h1, h2, h3, h4⟩
              cases hp; cases hq
              exact ⟨⟨h1, h2⟩, h3, h4⟩
  · intro h
    rw [isParenthesised]
    rcases h with h | h <;> rw [h] <;>
      first
        | rfl
        | (cases sc.getTokenBefore node <;> rfl)

/-- Witness for C2: a node at the very start of the file has no preceding
token and is therefore not parenthesised. -/
theorem isParenthesised_iff_spec_witness :
    isParenthesised sc0 nodeAtStart = false :=
  (isParenthesised_iff_spec sc0 nodeAtStart).2 (Or.inl (by rfl))

/-- C3: for each of the seven context names, `isEnabled` returns the
user-supplied value verbatim whenever the options object has an explicit
entry for that name (an explicit `false` included), and otherwise the
fixed default; an absent options object behaves as an empty override set,
and the defaults are exactly `declaration/assignment/return/arrow = true`,
`condition/logical/prop = false`. -/
theorem isEnabled_resolution (opts : Options) (t : String) (b : Bool)
    (ht : t ∈ ["declaration", "assignment", "return", "arrow",
               "condition", "logical", "prop"]) :
    (opts.lookup t = some b → isEnabled (some opts) t = some b) ∧
    (opts.lookup t = none → isEnabled (some opts) t = DEFAULTS t) ∧
    (isEnabled none t = isEnabled (some {}) t) ∧
    (isEnabled none t = DEFAULTS t) ∧
    (DEFAULTS "declaration" = some true ∧ DEFAULTS "assignment" = some true ∧
     DEFAULTS "return" = some true ∧ DEFAULTS "arrow" = some true ∧
     DEFAULTS "condition" = some false ∧ DEFAULTS "logical" = some false ∧
     DEFAULTS "prop" = some false) := by
  refine ⟨?_, ?_, rfl, ?_, rfl, rfl, rfl, rfl, rfl, rfl, rfl⟩
  · intro hlook
    simp [isEnabled, hlook]
  · intro hlook
    simp [isEnabled, hlook]
  · simp [isEnabled, emptyOptions_lookup]

/-- Witness for C3: an explicit `declaration: false` override is returned
verbatim and does not fall back to the default `true`. -/
theorem isEnabled_resolution_witness :
    isEnabled (some { declaration := some false }) "declaration" = some false :=
  (isEnabled_resolution { declaration := some false } "declaration" false
    (by decide)).1 rfl

/-- C4: with `declaration` (resp. `assignment`) enabled and `condition`
disabled, a declarator initializer (resp. assignment right-hand side) that
is a conditional expression is evaluated only through its consequent and
alternate branches; the conditional itself is never reported. -/
theorem conditional_special_case_branches (sc : SourceCode)
    (opts : Option Options) (dnode anode i r : Node)
    (hdecl : truthy (isEnabled opts "declaration") = true)
    (hasgn : truthy (isEnabled opts "assignment") = true)
    (hcond : truthy (isEnabled opts "condition") = false)
    (hinit : dnode.init = some i) (hitype : i.type = "ConditionalExpression")
    (hright : anode.right = some r) (hrtype : r.type = "ConditionalExpression") :
    VariableDeclarator sc opts dnode =
      (check sc i.consequent).toList ++ (check sc i.alternate).toList ∧
    check sc (some i) = none ∧
    AssignmentExpression sc opts anode =
      .ok ((check sc r.consequent).toList ++ (check sc r.alternate).toList) ∧
    check sc (some r) = none := by
  refine ⟨?_, ?_, ?_, ?_⟩
  · rw [VariableDeclarator, hdecl, hcond, hinit]
    simp [isConditionalNode, hitype]
  · simp [check, hitype]
  · rw [AssignmentExpression, hasgn, hcond, hright]
    simp [hrtype]
  · simp [check, hrtype]

/-- Witness for C4: with default options (declaration and assignment on,
condition off) the conditional initializer of `decl5` and right-hand side
of `asgn5` are evaluated exactly through their branches. -/
theorem conditional_special_case_branches_witness :
    VariableDeclarator sc0 none decl5 =
      (check sc0 cond5.consequent).toList ++ (check sc0 cond5.alternate).toList ∧
    AssignmentExpression sc0 none asgn5 =
      .ok ((check sc0 cond5.consequent).toList ++
           (check sc0 cond5.alternate).toList) :=
  ⟨(conditional_special_case_branches sc0 none decl5 asgn5 cond5 cond5
      rfl rfl rfl rfl rfl rfl rfl).1,
   (conditional_special_case_branches sc0 none decl5 asgn5 cond5 cond5
      rfl rfl rfl rfl rfl rfl rfl).2.2.1⟩

/-- Counterexample to C5 as stated: `cond5` is a multiline, unwrapped
conditional initializer and the `condition` context is enabled, yet
neither the declarator handler nor the conditional handler ever reports
the conditional as a whole — the declarator handler produces no violation
at all, because the conditional is not a `JSXElement`. -/
theorem conditional_whole_never_flagged_cex :
    truthy (isEnabled (some opts5) "condition") = true ∧
    decl5.init = some cond5 ∧
    isMultilines cond5 = true ∧
    isParenthesised sc0 cond5 = false ∧
    VariableDeclarator sc0 (some opts5) decl5 = [] ∧
    ConditionalExpression sc0 (some opts5) cond5 = [] :=
  ⟨rfl, rfl, rfl, rfl, rfl, rfl⟩

/-- C5 (amended): for a variable declarator whose initializer is a
conditional expression, when the `condition` context is enabled the
declarator handler evaluates the conditional as a whole as its only
candidate, but the conditional is never reported since it is not a markup
element; its consequent and alternate are independently evaluated under
the `condition` handler rather than under the declaration handler. -/
theorem declarator_condition_enabled (sc : SourceCode) (opts : Option Options)
    (dnode i : Node)
    (hdecl : truthy (isEnabled opts "declaration") = true)
    (hcond : truthy (isEnabled opts "condition") = true)
    (hinit : dnode.init = some i)
    (hitype : i.type = "ConditionalExpression") :
    VariableDeclarator sc opts dnode = (check sc (some i)).toList ∧
    check sc (some i) = none ∧
    VariableDeclarator sc opts dnode = [] ∧
    ConditionalExpression sc opts i =
      (check sc i.consequent).toList ++ (check sc i.alternate).toList := by
  have h1 : VariableDeclarator sc opts dnode = (check sc (some i)).toList := by
    rw [VariableDeclarator, hdecl, hcond, hinit]
    simp
  have h2 : check sc (some i) = none := by simp [check, hitype]
  refine ⟨h1, h2, by rw [h1, h2]; rfl, ?_⟩
  rw [ConditionalExpression, hcond]
  simp

/-- Witness for C5 (amended): on `decl5` with `condition` enabled the
declarator handler reports nothing and the condition handler evaluates the
two branches. -/
theorem declarator_condition_enabled_witness :
    VariableDeclarator sc0 (some opts5) decl5 = [] ∧
    ConditionalExpression sc0 (some opts5) cond5 =
      (check sc0 cond5.consequent).toList ++ (check sc0 cond5.alternate).toList :=
  ⟨(declarator_condition_enabled sc0 (some opts5) decl5 cond5
      rfl rfl rfl rfl).2.2.1,
   (declarator_condition_enabled sc0 (some opts5) decl5 cond5
      rfl rfl rfl rfl).2.2.2⟩

/-- C8: an absent candidate or a candidate that is not a markup element is
silently skipped with no report, and on a well-formed delivery (an
assignment with a right-hand side present, an arrow function with a body
present) the handlers that read an unguarded child never crash. -/
theorem handlers_skip_and_never_crash (sc : SourceCode) (opts : Option Options)
    (an bn : Node)
    (ha : an.right.isSome = true) (hb : bn.body.isSome = true) :
    check sc none = none ∧
    (∀ n : Node, n.type ≠ "JSXElement" → check sc (some n) = none) ∧
    (∃ l, AssignmentExpression sc opts an = .ok l) ∧
    (∃ l, ArrowFunctionExpressionExit sc opts bn = .ok l) := by
  refine ⟨rfl, ?_, ?_, ?_⟩
  · intro n hn
    simp [check, hn]
  · rw [AssignmentExpression]
    rcases hr : an.right with - | r
    · rw [hr] at ha; exact Bool.noConfusion ha
    · split
      · exact ⟨[], rfl⟩
      · split
        · dsimp only
          split <;> exact ⟨_, rfl⟩
        · exact ⟨_, rfl⟩
  · rw [ArrowFunctionExpressionExit]
    rcases hbody : bn.body with - | b
    · rw [hbody] at hb; exact Bool.noConfusion hb
    · split
      · dsimp only
        split <;> exact ⟨_, rfl⟩
      · exact ⟨[], rfl⟩

/-- Witness for C8: on `asgn5` and `arrow0` (both well-formed) the two
handlers succeed. -/
theorem handlers_skip_and_never_crash_witness :
    (∃ l, AssignmentExpression sc0 none asgn5 = .ok l) ∧
    (∃ l, ArrowFunctionExpressionExit sc0 none arrow0 = .ok l) :=
  ⟨(handlers_skip_and_never_crash sc0 none asgn5 arrow0 rfl rfl).2.2.1,
   (handlers_skip_and_never_crash sc0 none asgn5 arrow0 rfl rfl).2.2.2⟩

/-- C9: with `arrow` enabled, the arrow handler evaluates the body exactly
when the body is not a block statement and evaluates nothing when it is a
block; the return handler evaluates the return argument exactly when the
`return` context is enabled. -/
theorem arrow_body_and_return_handler (sc : SourceCode) (opts : Option Options)
    (an rn b : Node) (hbody : an.body = some b) :
    (truthy (isEnabled opts "arrow") = true → b.type ≠ "BlockStatement" →
      ArrowFunctionExpressionExit sc opts an = .ok (check sc (some b)).toList) ∧
    (truthy (isEnabled opts "arrow") = true → b.type = "BlockStatement" →
      ArrowFunctionExpressionExit sc opts an = .ok []) ∧
    (truthy (isEnabled opts "return") = true →
      ReturnStatement sc opts rn = (check sc rn.argument).toList) ∧
    (truthy (isEnabled opts "return") = false →
      ReturnStatement sc opts rn = []) := by
  refine ⟨?_, ?_, ?_, ?_⟩
  · intro hen hne
    rw [ArrowFunctionExpressionExit, hen, if_pos rfl, hbody]
    simp [hne]
  · intro hen hblk
    rw [ArrowFunctionExpressionExit, hen, if_pos rfl, hbody]
    simp [hblk]
  · intro hen
    rw [ReturnStatement, hen, if_pos rfl]
  · intro hen
    rw [ReturnStatement, hen]
    rfl

/-- Witness for C9: `arrow0` has the non-block body `jsxNode`, so with the
default options the arrow handler evaluates exactly that body; with
`return` disabled the return handler evaluates nothing. -/
theorem arrow_body_and_return_handler_witness :
    ArrowFunctionExpressionExit sc0 none arrow0 =
      .ok (check sc0 (some jsxNode)).toList ∧
    ReturnStatement sc0 (some { «return» := some false }) return0 = [] :=
  ⟨(arrow_body_and_return_handler sc0 none arrow0 return0 jsxNode rfl).1
      rfl (by decide),
   (arrow_body_and_return_handler sc0 (some { «return» := some false })
      arrow0 return0 jsxNode rfl).2.2.2 rfl⟩

/-- C10: every violation `check` reports carries a present fix, the exact
message `Missing parentheses around multilines JSX`, and the flagged
markup-element node itself. -/
theorem report_always_fix_message_node (sc : SourceCode) (no : Option Node)
    (v : Violation) (h : check sc no = some v) :
    v.fix.isSome = true ∧
    v.message = "Missing parentheses around multilines JSX" ∧
    (∃ n, no = some n ∧ v.node = n ∧ n.type = "JSXElement") := by
  cases no with
  | none => exact Option.noConfusion h
  | some n =>
      obtain ⟨htype, hnode, hmsg, hfix, -, -⟩ := check_some_elim sc n v h
      exact ⟨by rw [hfix]; rfl, hmsg, n, rfl, hnode, htype⟩

/-- Witness for C10: the violation reported on `jsxNode` has a fix, the
fixed message and the flagged node. -/
theorem report_always_fix_message_node_witness :
    violation0.fix.isSome = true ∧
    violation0.message = "Missing parentheses around multilines JSX" ∧
    (∃ n, some jsxNode = some n ∧ violation0.node = n ∧
          n.type = "JSXElement") :=
  report_always_fix_message_node sc0 (some jsxNode) violation0 rfl

theorem shiftNodeRange_type (k : Nat) (n : Node) :
    (shiftNodeRange k n).type = n.type := by
  cases n
  rfl

theorem shiftNodeRange_rangeStart (k : Nat) (n : Node) :
    (shiftNodeRange k n).rangeStart = n.rangeStart + k := by
  cases n
  rfl

theorem shiftNodeRange_rangeEnd (k : Nat) (n : Node) :
    (shiftNodeRange k n).rangeEnd = n.rangeEnd + k := by
  cases n
  rfl

/-- After the fix, the token immediately before the shifted node is the
inserted `(`. -/
theorem applyFixTokens_before (ts : List Token) (s e : Nat)
    (hwf : ∀ t ∈ ts, t.rangeStart < t.rangeEnd) (hse : s ≤ e) :
    ((applyFixTokens ts s e).filter
        (fun t => decide (t.rangeEnd ≤ s + 1))).getLast? =
      some ⟨"(", s, s + 1⟩ := by
  have hA : (ts.filter (fun t => decide (t.rangeEnd ≤ s))).filter
      (fun t => decide (t.rangeEnd ≤ s + 1)) =
      ts.filter (fun t => decide (t.rangeEnd ≤ s)) := by
    refine List.filter_eq_self.mpr ?_
    intro t ht
    have h := (List.mem_filter.mp ht).2
    simp only [decide_eq_true_eq] at h ⊢
    omega
  have hlp : List.filter (fun t => decide (t.rangeEnd ≤ s + 1))
      [(⟨"(", s, s + 1⟩ : Token)] = [⟨"(", s, s + 1⟩] := by
    refine List.filter_eq_self.mpr ?_
    intro t ht
    rw [List.mem_singleton] at ht
    subst ht
    simp
  have hB : ((ts.filter (fun t =>
        decide (s ≤ t.rangeStart) && decide (t.rangeEnd ≤ e))).map
      (shiftToken 1)).filter (fun t => decide (t.rangeEnd ≤ s + 1)) = [] := by
    refine List.filter_eq_nil_iff.mpr ?_
    intro t ht
    obtain ⟨u, hu, rfl⟩ := List.mem_map.mp ht
    obtain ⟨humem, hq⟩ := List.mem_filter.mp hu
    have hwfu := hwf u humem
    simp only [Bool.and_eq_true, decide_eq_true_eq] at hq
    simp only [shiftToken, decide_eq_true_eq]
    omega
  have hrp : List.filter (fun t => decide (t.rangeEnd ≤ s + 1))
      [(⟨")", e + 1, e + 2⟩ : Token)] = [] := by
    refine List.filter_eq_nil_iff.mpr ?_
    intro t ht
    rw [List.mem_singleton] at ht
    subst ht
    simp only [decide_eq_true_eq]
    omega
  have hC : ((ts.filter (fun t => decide (e ≤ t.rangeStart))).map
      (shiftToken 2)).filter (fun t => decide (t.rangeEnd ≤ s + 1)) = [] := by
    refine List.filter_eq_nil_iff.mpr ?_
    intro t ht
    obtain ⟨u, hu, rfl⟩ := List.mem_map.mp ht
    obtain ⟨humem, hq⟩ := List.mem_filter.mp hu
    have hwfu := hwf u humem
    simp only [decide_eq_true_eq] at hq
    simp only [shiftToken, decide_eq_true_eq]
    omega
  rw [applyFixTokens]
  simp only [List.filter_append, hA, hlp, hB, hrp, hC, List.append_nil]
  exact List.getLast?_concat _

/-- After the fix, the token immediately after the shifted node is the
inserted `)`. -/
theorem applyFixTokens_after (ts : List Token) (s e : Nat)
    (hwf : ∀ t ∈ ts, t.rangeStart < t.rangeEnd) (hse : s ≤ e) :
    ((applyFixTokens ts s e).filter
        (fun t => decide (e + 1 ≤ t.rangeStart))).head? =
      some ⟨")", e + 1, e + 2⟩ := by
  have hA : (ts.filter (fun t => decide (t.rangeEnd ≤ s))).filter
      (fun t => decide (e + 1 ≤ t.rangeStart)) = [] := by
    refine List.filter_eq_nil_iff.mpr ?_
    intro t ht
    obtain ⟨humem, hq⟩ := List.mem_filter.mp ht
    have hwfu := hwf t humem
    simp only [decide_eq_true_eq] at hq
    simp only [decide_eq_true_eq]
    omega
  have hlp : List.filter (fun t => decide (e + 1 ≤ t.rangeStart))
      [(⟨"(", s, s + 1⟩ : Token)] = [] := by
    refine List.filter_eq_nil_iff.mpr ?_
    intro t ht
    rw [List.mem_singleton] at ht
    subst ht
    simp only [decide_eq_true_eq]
    omega
  have hB : ((ts.filter (fun t =>
        decide (s ≤ t.rangeStart) && decide (t.rangeEnd ≤ e))).map
      (shiftToken 1)).filter (fun t => decide (e + 1 ≤ t.rangeStart)) = [] := by
    refine List.filter_eq_nil_iff.mpr ?_
    intro t ht
    obtain ⟨u, hu, rfl⟩ := List.mem_map.mp ht
    obtain ⟨humem, hq⟩ := List.mem_filter.mp hu
    have hwfu := hwf u humem
    simp only [Bool.and_eq_true, decide_eq_true_eq] at hq
    simp only [shiftToken, decide_eq_true_eq]
    omega
  have hrp : List.filter (fun t => decide (e + 1 ≤ t.rangeStart))
      [(⟨")", e + 1, e + 2⟩ : Token)] = [⟨")", e + 1, e + 2⟩] := by
    refine List.filter_eq_self.mpr ?_
    intro t ht
    rw [List.mem_singleton] at ht
    subst ht
    simp
  rw [applyFixTokens]
  simp only [List.filter_append, hA, hlp, hB, hrp, List.nil_append]
  rfl

/-- C6: the fix is idempotent — applying the synthesized replacement and
re-evaluating the node at its (shifted) position makes the parenthesised
predicate true, so no second violation is produced there. -/
theorem fix_idempotent (sc : SourceCode) (node : Node) (v : Violation) (f : Fix)
    (hwf : ∀ t ∈ sc.tokens, t.rangeStart < t.rangeEnd)
    (hse : node.rangeStart ≤ node.rangeEnd)
    (hchk : check sc (some node) = some v) (hfix : v.fix = some f) :
    isParenthesised (fixedSource sc node f) (shiftNodeRange 1 node) = true ∧
    check (fixedSource sc node f) (some (shiftNodeRange 1 node)) = none := by
  obtain ⟨htype, -, -, -, -, -⟩ := check_some_elim sc node v hchk
  have hbefore : (fixedSource sc node f).getTokenBefore (shiftNodeRange 1 node) =
      some ⟨"(", node.rangeStart, node.rangeStart + 1⟩ := by
    simp only [SourceCode.getTokenBefore, fixedSource, shiftNodeRange_rangeStart]
    exact applyFixTokens_before sc.tokens node.rangeStart node.rangeEnd hwf hse
  have hafter : (fixedSource sc node f).getTokenAfter (shiftNodeRange 1 node) =
      some ⟨")", node.rangeEnd + 1, node.rangeEnd + 2⟩ := by
    simp only [SourceCode.getTokenAfter, fixedSource, shiftNodeRange_rangeEnd]
    exact applyFixTokens_after sc.tokens node.rangeStart node.rangeEnd hwf hse
  have hparen : isParenthesised (fixedSource sc node f)
      (shiftNodeRange 1 node) = true := by
    rw [isParenthesised, hbefore, hafter]
    simp [shiftNodeRange_rangeStart, shiftNodeRange_rangeEnd]
  refine ⟨hparen, ?_⟩
  simp [check, shiftNodeRange_type, htype, hparen]

/-- Witness for C6: applying the fix produced on `jsxNode` in `sc0` and
re-evaluating the shifted node yields `parenthesised = true` and no second
violation. -/
theorem fix_idempotent_witness :
    isParenthesised (fixedSource sc0 jsxNode fix0) (shiftNodeRange 1 jsxNode) = true ∧
    check (fixedSource sc0 jsxNode fix0) (some (shiftNodeRange 1 jsxNode)) = none :=
  fix_idempotent sc0 jsxNode violation0 fix0 (by decide) (by decide) rfl rfl

/-- C7: the synthesized fix is a single replacement covering exactly the
node's own source range whose text is `(` + the node's exact original
source text + `)`: the edited file gains exactly two characters and every
character outside the node's range is unchanged (the prefix before the
node and the suffix after it are preserved verbatim). -/
theorem fix_covers_exactly_node_range (sc : SourceCode) (n : Node)
    (v : Violation) (f : Fix)
    (h : check sc (some n) = some v) (hf : v.fix = some f)
    (hse : n.rangeStart ≤ n.rangeEnd) (hlen : n.rangeEnd ≤ sc.text.length) :
    f.rangeStart = n.rangeStart ∧ f.rangeEnd = n.rangeEnd ∧
    f.text = ('(' :: sc.getText n) ++ [')'] ∧
    (applyFix sc.text f).length = sc.text.length + 2 ∧
    (applyFix sc.text f).take n.rangeStart = sc.text.take n.rangeStart ∧
    (applyFix sc.text f).drop (n.rangeEnd + 2) = sc.text.drop n.rangeEnd := by
  obtain ⟨-, -, -, hfixeq, -, -⟩ := check_some_elim sc n v h
  rw [hf] at hfixeq
  injection hfixeq with hfv
  subst hfv
  have hslice : (sc.getText n).length = n.rangeEnd - n.rangeStart := by
    rw [SourceCode.getText, List.length_take, List.length_drop]
    omega
  have htakelen : (sc.text.take n.rangeStart).length = n.rangeStart := by
    rw [List.length_take]
    omega
  refine ⟨rfl, rfl, rfl, ?_, ?_, ?_⟩
  · rw [applyFix]
    simp only [List.length_append, List.length_cons, List.length_nil,
      List.length_take, List.length_drop, hslice]
    omega
  · rw [applyFix, List.append_assoc]
    exact List.take_left' htakelen
  · rw [applyFix, ← List.append_assoc]
    refine List.drop_left' ?_
    simp only [List.length_append, List.length_cons, List.length_nil,
      htakelen, hslice]
    omega

/-- Witness for C7: the fix produced on `jsxNode` replaces exactly the
range 4 to 22 and the edited `sc0` keeps its prefix and suffix. -/
theorem fix_covers_exactly_node_range_witness :
    fix0.rangeStart = jsxNode.rangeStart ∧ fix0.rangeEnd = jsxNode.rangeEnd ∧
    fix0.text = ('(' :: sc0.getText jsxNode) ++ [')'] ∧
    (applyFix sc0.text fix0).length = sc0.text.length + 2 ∧
    (applyFix sc0.text fix0).take jsxNode.rangeStart =
      sc0.text.take jsxNode.rangeStart ∧
    (applyFix sc0.text fix0).drop (jsxNode.rangeEnd + 2) =
      sc0.text.drop jsxNode.rangeEnd :=
  fix_covers_exactly_node_range sc0 jsxNode violation0 fix0 rfl rfl
    (by decide) (by decide)

end JsxWrapMultilines
